import Mathlib

/-!
Verification of the compiletest JSON diagnostic scanner/flattener
(`src/compiletest/json.rs`): decoded `Diagnostic` trees are flattened
into an ordered list of expected `Error` records, filtered to the file
under test.
-/

namespace Compiletest

/-- Split a character list at newline characters; an empty list yields
one empty segment, mirroring `String.split` semantics. -/
def splitNewline : List Char → List (List Char)
  | [] => [[]]
  | c :: cs =>
    if c = '\n' then [] :: splitNewline cs
    else
      match splitNewline cs with
      | [] => [c] :: []
      | h :: t => (c :: h) :: t

/-- Model of Rust `str::lines`: split at `\n`, drop a final empty
segment (the final line ending is optional), and strip one trailing
`\r` from each line (so `\r\n` also terminates a line). -/
def rustLines (s : String) : List String :=
  let parts := splitNewline s.data
  let parts := if parts.getLast? = some [] then parts.dropLast else parts
  parts.map (fun cs =>
    String.mk (if cs.getLast? = some '\r' then cs.dropLast else cs))

/-- Modelled from the spec: the error-kind classification from the
`errors` module (not under src/). Recognized `level` strings map to the
closed classification set; this mirrors `errors::ErrorKind`. -/
inductive ErrorKind : Type where
  | help
  | error
  | note
  | suggestion
  | warning
deriving DecidableEq, Repr

/-- Modelled from the spec: `ErrorKind::from_str(..).ok()` from the
`errors` module (not under src/): a total map from the open `level`
string to an optional kind; recognized values map to
error/warning/note/help/suggestion and unrecognized strings map to
`none` (no classification). -/
def ErrorKind.fromStr (s : String) : Option ErrorKind :=
  if s == "help" then some .help
  else if s == "error" then some .error
  else if s == "note" then some .note
  else if s == "suggestion" then some .suggestion
  else if s == "warning" then some .warning
  else none

/-- Output record (`errors::Error`): a flat, per-line unit of
comparison. -/
structure Error : Type where
  line_num : Nat
  kind : Option ErrorKind
  msg : String
deriving DecidableEq, Repr

/-- `DiagnosticCode` from `json.rs`. -/
structure DiagnosticCode : Type where
  code : String
  explanation : Option String

mutual

/-- `DiagnosticSpan` from `json.rs`: a 1-based location range plus an
optional macro-expansion trail. -/
inductive DiagnosticSpan : Type where
  | mk (file_name : String)
       (line_start : Nat) (line_end : Nat)
       (column_start : Nat) (column_end : Nat)
       (expansion : Option DiagnosticSpanMacroExpansion) : DiagnosticSpan

/-- `DiagnosticSpanMacroExpansion` from `json.rs`: the span where a
macro was applied plus the macro's textual name. -/
inductive DiagnosticSpanMacroExpansion : Type where
  | mk (span : DiagnosticSpan) (macro_decl_name : String) :
      DiagnosticSpanMacroExpansion

end

def DiagnosticSpan.file_name : DiagnosticSpan → String
  | .mk f _ _ _ _ _ => f

def DiagnosticSpan.line_start : DiagnosticSpan → Nat
  | .mk _ ls _ _ _ _ => ls

def DiagnosticSpan.line_end : DiagnosticSpan → Nat
  | .mk _ _ le _ _ _ => le

def DiagnosticSpan.column_start : DiagnosticSpan → Nat
  | .mk _ _ _ cs _ _ => cs

def DiagnosticSpan.column_end : DiagnosticSpan → Nat
  | .mk _ _ _ _ ce _ => ce

def DiagnosticSpan.expansion :
    DiagnosticSpan → Option DiagnosticSpanMacroExpansion
  | .mk _ _ _ _ _ e => e

def DiagnosticSpanMacroExpansion.span :
    DiagnosticSpanMacroExpansion → DiagnosticSpan
  | .mk s _ => s

def DiagnosticSpanMacroExpansion.macro_decl_name :
    DiagnosticSpanMacroExpansion → String
  | .mk _ n => n

/-- `Diagnostic` from `json.rs`: one structured compiler message, with
nested children and an optional pre-rendered suggestion text. -/
inductive Diagnostic : Type where
  | mk (message : String)
       (code : Option DiagnosticCode)
       (level : String)
       (spans : List DiagnosticSpan)
       (children : List Diagnostic)
       (rendered : Option String) : Diagnostic

def Diagnostic.message : Diagnostic → String
  | .mk m _ _ _ _ _ => m

def Diagnostic.code : Diagnostic → Option DiagnosticCode
  | .mk _ c _ _ _ _ => c

def Diagnostic.level : Diagnostic → String
  | .mk _ _ l _ _ _ => l

def Diagnostic.spans : Diagnostic → List DiagnosticSpan
  | .mk _ _ _ s _ _ => s

def Diagnostic.children : Diagnostic → List Diagnostic
  | .mk _ _ _ _ c _ => c

def Diagnostic.rendered : Diagnostic → Option String
  | .mk _ _ _ _ _ r => r

/-- The `with_code` closure of `push_expected_errors`: format a message
line for a span, embedding the location (never the file name) and the
optional error code. -/
def with_code (code : Option DiagnosticCode) (span : DiagnosticSpan)
    (text : String) : String :=
  match code with
  | some c =>
    toString span.line_start ++ ":" ++ toString span.column_start ++ ": " ++
    toString span.line_end ++ ":" ++ toString span.column_end ++ ": " ++
    text ++ " [" ++ c.code ++ "]"
  | none =>
    toString span.line_start ++ ":" ++ toString span.column_start ++ ": " ++
    toString span.line_end ++ ":" ++ toString span.column_end ++ ": " ++
    text

/-- `push_backtrace` from `json.rs`: walk the macro-expansion chain,
emitting a note at each frame whose own span is in the target file, then
recursing into the frame's nested expansion. -/
def push_backtrace (expansion : DiagnosticSpanMacroExpansion)
    (file_name : String) : List Error :=
  match expansion with
  | .mk (.mk f ls _le _cs _ce nested) name =>
    (if f == file_name then
      [{ line_num := ls
         kind := some ErrorKind.note
         msg := "in this expansion of " ++ name }]
     else []) ++
    (match nested with
     | some previous_expansion => push_backtrace previous_expansion file_name
     | none => [])

mutual

/-- `push_expected_errors` from `json.rs`: flatten one `Diagnostic`
tree into the ordered record list, filtered to `file_name`. The Rust
function appends to an accumulator and can `panic!`; here it returns
the appended records, with the panic modelled as `Except.error`. -/
def push_expected_errors (diagnostic : Diagnostic) (file_name : String) :
    Except String (List Error) :=
  match diagnostic with
  | .mk message code level spans children rendered =>
    let matching_spans := spans.filter (fun s => s.file_name == file_name)
    let message_lines := rustLines message
    let firstRecords :=
      match message_lines with
      | [] => []
      | first_line :: _ =>
        matching_spans.map (fun span =>
          ({ line_num := span.line_start
             kind := ErrorKind.fromStr level
             msg := with_code code span first_line } : Error))
    let restRecords :=
      (message_lines.drop 1).flatMap (fun next_line =>
        matching_spans.map (fun span =>
          ({ line_num := span.line_start
             kind := none
             msg := with_code code span next_line } : Error)))
    do
    let renderedRecords ←
      match rendered with
      | none => pure []
      | some r =>
        match (matching_spans.map (fun s => s.line_start)).min? with
        | none => Except.error "every suggestion should have at least one span"
        | some start_line =>
          pure ((rustLines r).enum.map (fun p =>
            ({ line_num := start_line + p.1
               kind := some ErrorKind.suggestion
               msg := p.2 } : Error)))
    let backtraceRecords := matching_spans.flatMap (fun span =>
      match span.expansion with
      | some frame => push_backtrace frame file_name
      | none => [])
    let childRecords ← push_children children file_name
    pure (firstRecords ++ restRecords ++ renderedRecords ++
          backtraceRecords ++ childRecords)

/-- The `for child in &diagnostic.children` loop of
`push_expected_errors`: flatten each child in declaration order. -/
def push_children (children : List Diagnostic) (file_name : String) :
    Except String (List Error) :=
  match children with
  | [] => pure []
  | child :: rest => do
    let head ← push_expected_errors child file_name
    let tail ← push_children rest file_name
    pure (head ++ tail)

end

/-- `parse_line` from `json.rs`: a line whose first character is `{` is
decoded as a `Diagnostic` and flattened; other lines are skipped. The
decoder (`rustc_serialize::json`, external) is a parameter; a decode
failure is fatal: the Rust code prints the decode error and panics,
modelled as `Except.error` carrying the printed message. -/
def parse_line (decode : String → Except String Diagnostic)
    (file_name : String) (line : String) : Except String (List Error) :=
  if line.data.head? = some '\x7b' then
    match decode line with
    | .ok diagnostic => push_expected_errors diagnostic file_name
    | .error error =>
      Except.error ("failed to decode compiler output as json: `" ++
                    error ++ "`")
  else
    pure []

/-- The lines loop of `parse_output` (`flat_map` over `output.lines()`),
aborting at the first fatal line. -/
def parse_lines (decode : String → Except String Diagnostic)
    (file_name : String) : List String → Except String (List Error)
  | [] => pure []
  | line :: rest => do
    let head ← parse_line decode file_name line
    let tail ← parse_lines decode file_name rest
    pure (head ++ tail)

/-- `parse_output` from `json.rs`: the public entry point. -/
def parse_output (decode : String → Except String Diagnostic)
    (file_name : String) (output : String) : Except String (List Error) :=
  parse_lines decode file_name (rustLines output)

deriving instance DecidableEq for Except

mutual

/-- Remove from every `spans` list, recursively through `children`, the
spans whose `file_name` differs from the target file; all other fields,
including expansion chains, are kept unchanged. -/
def filterToFile : Diagnostic → String → Diagnostic
  | .mk m c l spans children r, fn =>
    .mk m c l (spans.filter (fun s => s.file_name == fn))
      (filterChildren children fn) r

/-- `filterToFile` applied to each child of a child list. -/
def filterChildren : List Diagnostic → String → List Diagnostic
  | [], _ => []
  | d :: ds, fn => filterToFile d fn :: filterChildren ds fn

end

/-- The frames of a macro-expansion backtrace chain, outermost first:
each frame's own span paired with the frame's macro name. -/
def chainFrames :
    DiagnosticSpanMacroExpansion → List (DiagnosticSpan × String)
  | .mk (.mk f ls le cs ce nested) name =>
    (DiagnosticSpan.mk f ls le cs ce nested, name) ::
    (match nested with
     | some previous => chainFrames previous
     | none => [])

/-- A decoder stub that rejects every line (used to exercise the
decode-failure path at a concrete input). -/
def dec0 : String → Except String Diagnostic := fun _ => Except.error "boom"

/-- A decoder stub that produces, for every line, a diagnostic whose
`rendered` text is present but whose only span is in another file. -/
def dec1 : String → Except String Diagnostic := fun _ =>
  Except.ok (.mk "m" none "error" [.mk "other.rs" 3 3 1 2 none] []
    (some "x"))

/-! ### Spec-side descriptions of the traversal (from the spec's words)

The following definitions restate, segment by segment, the traversal
order the spec prescribes in its data-model invariants and in the
flattener contract; the theorems below compare `push_expected_errors`
(translated from the source) against their concatenation. -/

/-- Spec: "the subsequence of `spans` whose `file_name` equals the
target file name, preserving original order". -/
def matchingSpans (fn : String) (spans : List DiagnosticSpan) :
    List DiagnosticSpan :=
  spans.filter (fun s => s.file_name == fn)

/-- Spec: "The first line, if present, is emitted once per matching
span, classified with the diagnostic's level-derived kind." -/
def specFirstLineRecords (fn : String) (code : Option DiagnosticCode)
    (level message : String) (spans : List DiagnosticSpan) : List Error :=
  match rustLines message with
  | [] => []
  | first_line :: _ =>
    (matchingSpans fn spans).map (fun s =>
      ({ line_num := s.line_start
         kind := ErrorKind.fromStr level
         msg := with_code code s first_line } : Error))

/-- Spec: "Every subsequent line is emitted once per matching span with
no classification (kind = none)." -/
def specRestLineRecords (fn : String) (code : Option DiagnosticCode)
    (message : String) (spans : List DiagnosticSpan) : List Error :=
  ((rustLines message).drop 1).flatMap (fun next_line =>
    (matchingSpans fn spans).map (fun s =>
      ({ line_num := s.line_start
         kind := none
         msg := with_code code s next_line } : Error)))

/-- Spec: "If `rendered` is present: compute `start_line` = the minimum
`line_start` across matching spans (fails fatally if there are no
matching spans at all). Emit one Error per line of `rendered`, with
`line_num` = `start_line + index` (0-based), classified uniformly as a
suggestion kind." -/
def specRenderedRecords (fn : String) (spans : List DiagnosticSpan)
    (rendered : Option String) : Except String (List Error) :=
  match rendered with
  | none => pure []
  | some r =>
    match ((matchingSpans fn spans).map (fun s => s.line_start)).min? with
    | none => Except.error "every suggestion should have at least one span"
    | some start_line =>
      pure ((rustLines r).enum.map (fun p =>
        ({ line_num := start_line + p.1
           kind := some ErrorKind.suggestion
           msg := p.2 } : Error)))

/-- Spec: "for each matching span that has an `expansion`", walk the
backtrace chain. -/
def specBacktraceRecords (fn : String) (spans : List DiagnosticSpan) :
    List Error :=
  (matchingSpans fn spans).flatMap (fun s =>
    match s.expansion with
    | some frame => push_backtrace frame fn
    | none => [])

/-- The spec's traversal order for one `Diagnostic`'s own records:
first message line, then remaining message lines, then
rendered/suggestion lines, then macro-expansion backtrace notes. -/
def specOwnRecords (fn message : String) (code : Option DiagnosticCode)
    (level : String) (spans : List DiagnosticSpan)
    (rendered : Option String) : Except String (List Error) := do
  let renderedRecords ← specRenderedRecords fn spans rendered
  pure (specFirstLineRecords fn code level message spans ++
        specRestLineRecords fn code message spans ++
        renderedRecords ++
        specBacktraceRecords fn spans)

/-- The `line_start`s of the frames of one expansion chain whose own
span lies in the target file. -/
def chainMatchingLineStarts (fn : String)
    (expansion : DiagnosticSpanMacroExpansion) : List Nat :=
  (chainFrames expansion).filterMap (fun p =>
    if p.1.file_name == fn then some p.1.line_start else none)

mutual

/-- Every `line_start` belonging to the target file in a diagnostic
tree: the matching spans' `line_start`s, the `line_start`s of matching
expansion frames reachable from matching spans, and, recursively, those
of the children. Spans and frames of other files contribute nothing. -/
def diagMatchingLineStarts (fn : String) : Diagnostic → List Nat
  | .mk _ _ _ spans children _ =>
    (matchingSpans fn spans).map (fun s => s.line_start) ++
    ((matchingSpans fn spans).flatMap (fun s =>
      match s.expansion with
      | some frame => chainMatchingLineStarts fn frame
      | none => [])) ++
    diagsMatchingLineStarts fn children

/-- `diagMatchingLineStarts` over a child list. -/
def diagsMatchingLineStarts (fn : String) : List Diagnostic → List Nat
  | [] => []
  | d :: ds => diagMatchingLineStarts fn d ++ diagsMatchingLineStarts fn ds

end

mutual

/-- The rendered anchors of a diagnostic tree: for every node whose
rendered text is present and whose matching spans are nonempty, the
minimum matching `line_start` paired with the number of rendered lines;
recursively through the children. -/
def diagRenderedAnchors (fn : String) : Diagnostic → List (Nat × Nat)
  | .mk _ _ _ spans children rendered =>
    (match rendered with
     | some r =>
       (match ((matchingSpans fn spans).map (fun s => s.line_start)).min? with
        | some start_line => [(start_line, (rustLines r).length)]
        | none => [])
     | none => []) ++
    diagsRenderedAnchors fn children

/-- `diagRenderedAnchors` over a child list. -/
def diagsRenderedAnchors (fn : String) : List Diagnostic → List (Nat × Nat)
  | [] => []
  | d :: ds => diagRenderedAnchors fn d ++ diagsRenderedAnchors fn ds

end

/-- Provenance of one output record with respect to a diagnostic tree:
its line number is the `line_start` of a span or expansion frame of the
target file, or it lies in a rendered block, at an offset below the
block's length from the block's anchor. -/
def originatesFrom (fn : String) (d : Diagnostic) (x : Error) : Prop :=
  x.line_num ∈ diagMatchingLineStarts fn d ∨
  ∃ p ∈ diagRenderedAnchors fn d, ∃ i < p.2, x.line_num = p.1 + i

/-- Decomposition of `push_expected_errors`: a diagnostic's records are
its own records (in the spec's segment order) followed by its
children's records. -/
theorem push_decomp (m : String) (code : Option DiagnosticCode)
    (level : String) (spans : List DiagnosticSpan)
    (children : List Diagnostic) (rendered : Option String) (fn : String) :
    push_expected_errors (.mk m code level spans children rendered) fn =
      (do
        let own ← specOwnRecords fn m code level spans rendered
        let kids ← push_children children fn
        pure (own ++ kids)) := by
  cases rendered with
  | none =>
    cases h : push_children children fn with
    | ok kids =>
      simp [push_expected_errors, specOwnRecords, specRenderedRecords,
            specFirstLineRecords, specRestLineRecords, specBacktraceRecords,
            matchingSpans, h, Bind.bind, Except.bind, Except.map, Functor.map, pure, Except.pure]
    | error e =>
      simp [push_expected_errors, specOwnRecords, specRenderedRecords,
            specFirstLineRecords, specRestLineRecords, specBacktraceRecords,
            matchingSpans, h, Bind.bind, Except.bind, Except.map, Functor.map, pure, Except.pure]
  | some r =>
    cases hm : ((spans.filter (fun s => s.file_name == fn)).map
        (fun s => s.line_start)).min? with
    | none =>
      simp [push_expected_errors, specOwnRecords, specRenderedRecords,
            matchingSpans, hm, Bind.bind, Except.bind, Except.map, Functor.map, pure, Except.pure]
    | some start_line =>
      cases h : push_children children fn with
      | ok kids =>
        simp [push_expected_errors, specOwnRecords, specRenderedRecords,
              specFirstLineRecords, specRestLineRecords,
              specBacktraceRecords, matchingSpans, hm, h, Bind.bind, Except.bind, Except.map, Functor.map, pure, Except.pure]
      | error e =>
        simp [push_expected_errors, specOwnRecords, specRenderedRecords,
              specFirstLineRecords, specRestLineRecords,
              specBacktraceRecords, matchingSpans, hm, h, Bind.bind, Except.bind, Except.map, Functor.map, pure, Except.pure]

/-- Extraction form of the decomposition: a successful result splits
into the five segments of the traversal. -/
theorem push_ok_decomp (m : String) (code : Option DiagnosticCode)
    (level : String) (spans : List DiagnosticSpan)
    (children : List Diagnostic) (rendered : Option String) (fn : String)
    (es : List Error)
    (h : push_expected_errors (.mk m code level spans children rendered) fn =
      .ok es) :
    ∃ seg kids,
      specRenderedRecords fn spans rendered = .ok seg ∧
      push_children children fn = .ok kids ∧
      es = specFirstLineRecords fn code level m spans ++
           specRestLineRecords fn code m spans ++ seg ++
           specBacktraceRecords fn spans ++ kids := by
  rw [push_decomp] at h
  cases hr : specRenderedRecords fn spans rendered with
  | error e =>
    rw [specOwnRecords] at h
    simp [hr, Bind.bind, Except.bind] at h
  | ok seg =>
    cases hk : push_children children fn with
    | error e =>
      rw [specOwnRecords] at h
      simp [hr, hk, Bind.bind, Except.bind, pure, Except.pure] at h
    | ok kids =>
      refine ⟨seg, kids, rfl, rfl, ?_⟩
      rw [specOwnRecords] at h
      simp [hr, hk, Bind.bind, Except.bind, pure, Except.pure] at h
      simp [← h, List.append_assoc]

/-- A line that does not begin with a brace contributes nothing. -/
theorem parse_line_not_brace (decode : String → Except String Diagnostic)
    (fn line : String) (h : ¬ line.data.head? = some '\x7b') :
    parse_line decode fn line = .ok [] := by
  simp [parse_line, h, pure, Except.pure]

/-- Scanning lines none of which begins with a brace yields no
records. -/
theorem parse_lines_skip (decode : String → Except String Diagnostic)
    (fn : String) :
    ∀ L : List String, (∀ l ∈ L, ¬ l.data.head? = some '\x7b') →
      parse_lines decode fn L = .ok []
  | [], _ => rfl
  | a :: as, h => by
    have ha := h a (List.mem_cons_self a as)
    have ih :=
      parse_lines_skip decode fn as (fun l hl => h l (List.mem_cons_of_mem a hl))
    simp [parse_lines, parse_line_not_brace decode fn a ha, ih,
          Bind.bind, Except.bind, pure, Except.pure]

/-- If scanning some prefix of the lines succeeds and then one line is
fatal, the whole scan is fatal with that line's error: no partial list
is returned. -/
theorem parse_lines_append_error (decode : String → Except String Diagnostic)
    (fn l e : String) (post : List String)
    (hl : parse_line decode fn l = .error e) :
    ∀ (pre : List String) (es : List Error),
      parse_lines decode fn pre = .ok es →
      parse_lines decode fn (pre ++ l :: post) = .error e
  | [], es, _ => by
    simp [parse_lines, hl, Bind.bind, Except.bind]
  | p :: ps, es, h => by
    cases hp : parse_line decode fn p with
    | error e2 =>
      simp [parse_lines, hp, Bind.bind, Except.bind] at h
    | ok es1 =>
      cases hps : parse_lines decode fn ps with
      | error e2 =>
        simp [parse_lines, hp, hps, Bind.bind, Except.bind] at h
      | ok es2 =>
        have ih := parse_lines_append_error decode fn l e post hl ps es2 hps
        simp [parse_lines, hp, ih, Bind.bind, Except.bind]

/-- `push_backtrace` walks the expansion chain outer-to-inner and
filters every frame independently by file name. -/
theorem push_backtrace_chain (fn : String) :
    ∀ expansion : DiagnosticSpanMacroExpansion,
      push_backtrace expansion fn =
        (chainFrames expansion).flatMap (fun p =>
          if p.1.file_name == fn then
            [{ line_num := p.1.line_start
               kind := some ErrorKind.note
               msg := "in this expansion of " ++ p.2 }]
          else [])
  | .mk (.mk f ls le cs ce none) name => by
    simp [push_backtrace, chainFrames, DiagnosticSpan.file_name,
          DiagnosticSpan.line_start]
  | .mk (.mk f ls le cs ce (some prev)) name => by
    have ih := push_backtrace_chain fn prev
    simp [push_backtrace, chainFrames, DiagnosticSpan.file_name,
          DiagnosticSpan.line_start, ih]

mutual

/-- Dropping the spans of other files, recursively, does not change the
flattened output. -/
theorem push_filter_spans (fn : String) :
    ∀ d : Diagnostic,
      push_expected_errors (filterToFile d fn) fn = push_expected_errors d fn
  | .mk m c l spans children r => by
    have ih := push_children_filter fn children
    have hms : (spans.filter (fun s => s.file_name == fn)).filter
        (fun s => s.file_name == fn) = spans.filter (fun s => s.file_name == fn) := by
      simp [List.filter_filter]
    simp only [filterToFile]
    rw [push_decomp, push_decomp, ih]
    have hown : specOwnRecords fn m c l
        (spans.filter (fun s => s.file_name == fn)) r =
        specOwnRecords fn m c l spans r := by
      simp [specOwnRecords, specFirstLineRecords, specRestLineRecords,
            specRenderedRecords, specBacktraceRecords, matchingSpans, hms]
    rw [hown]

/-- List version of `push_filter_spans` for child lists. -/
theorem push_children_filter (fn : String) :
    ∀ cs : List Diagnostic,
      push_children (filterChildren cs fn) fn = push_children cs fn
  | [] => by simp [filterChildren]
  | d :: ds => by
    have ih1 := push_filter_spans fn d
    have ih2 := push_children_filter fn ds
    simp only [filterChildren, push_children]
    rw [ih1, ih2]

end

/-- Every record of a successful rendered segment is classified as a
suggestion. -/
theorem specRenderedRecords_kinds (fn : String)
    (spans : List DiagnosticSpan) (rendered : Option String)
    (seg : List Error)
    (h : specRenderedRecords fn spans rendered = .ok seg) :
    ∀ x ∈ seg, x.kind = some ErrorKind.suggestion := by
  cases rendered with
  | none =>
    simp [specRenderedRecords, pure, Except.pure] at h
    subst h
    intro x hx
    cases hx
  | some r =>
    cases hm : ((matchingSpans fn spans).map (fun s => s.line_start)).min? with
    | none => simp [specRenderedRecords, hm] at h
    | some start_line =>
      simp [specRenderedRecords, hm, pure, Except.pure] at h
      subst h
      intro x hx
      simp only [List.mem_map] at hx
      obtain ⟨p, hmem, hp⟩ := hx
      subst hp
      rfl

/-- The rendered segment's messages are the rendered lines verbatim. -/
theorem specRenderedRecords_msgs (fn : String)
    (spans : List DiagnosticSpan) (r : String) (seg : List Error)
    (h : specRenderedRecords fn spans (some r) = .ok seg) :
    seg.map (fun x => x.msg) = rustLines r := by
  cases hm : ((matchingSpans fn spans).map (fun s => s.line_start)).min? with
  | none => simp [specRenderedRecords, hm] at h
  | some start_line =>
    simp [specRenderedRecords, hm, pure, Except.pure] at h
    subst h
    simp [List.map_map, Function.comp]
    exact List.enum_map_snd _

/-- Every continuation-line record is unclassified. -/
theorem specRestLineRecords_kinds (fn : String)
    (code : Option DiagnosticCode) (m : String)
    (spans : List DiagnosticSpan) :
    ∀ x ∈ specRestLineRecords fn code m spans, x.kind = none := by
  intro x hx
  simp only [specRestLineRecords, List.mem_flatMap, List.mem_map] at hx
  obtain ⟨l, hl, s, hs, he⟩ := hx
  subst he
  rfl

/-- Bounds for `enumFrom` membership. -/
theorem mem_enumFrom_bounds {α : Type} :
    ∀ (l : List α) (n : Nat) (p : Nat × α),
      p ∈ l.enumFrom n → n ≤ p.1 ∧ p.1 < n + l.length
  | [], n, p => by
    intro h
    cases h
  | a :: as, n, p => by
    intro h
    simp only [List.enumFrom] at h
    rcases List.mem_cons.1 h with h | h
    · subst h
      simp
    · have := mem_enumFrom_bounds as (n + 1) p h
      simp only [List.length_cons]
      omega

/-- An `enum` entry's index is below the list's length. -/
theorem mem_enum_fst_lt {α : Type} (l : List α) (p : Nat × α)
    (h : p ∈ l.enum) : p.1 < l.length := by
  have := mem_enumFrom_bounds l 0 p (by simpa [List.enum] using h)
  omega

/-- First-line records carry a matching span's `line_start`. -/
theorem specFirstLineRecords_origin (fn : String)
    (code : Option DiagnosticCode) (level m : String)
    (spans : List DiagnosticSpan) :
    ∀ x ∈ specFirstLineRecords fn code level m spans,
      x.line_num ∈ (matchingSpans fn spans).map (fun s => s.line_start) := by
  intro x hx
  cases hml : rustLines m with
  | nil => simp [specFirstLineRecords, hml] at hx
  | cons a as =>
    simp only [specFirstLineRecords, hml, List.mem_map] at hx
    obtain ⟨s, hs, he⟩ := hx
    simp only [List.mem_map]
    exact ⟨s, hs, by rw [← he]⟩

/-- Continuation-line records carry a matching span's `line_start`. -/
theorem specRestLineRecords_origin (fn : String)
    (code : Option DiagnosticCode) (m : String)
    (spans : List DiagnosticSpan) :
    ∀ x ∈ specRestLineRecords fn code m spans,
      x.line_num ∈ (matchingSpans fn spans).map (fun s => s.line_start) := by
  intro x hx
  simp only [specRestLineRecords, List.mem_flatMap, List.mem_map] at hx
  obtain ⟨l, hl, s, hs, he⟩ := hx
  simp only [List.mem_map]
  exact ⟨s, hs, by rw [← he]⟩

/-- Backtrace records carry the `line_start` of a matching frame of a
chain hanging off a matching span. -/
theorem specBacktraceRecords_origin (fn : String)
    (spans : List DiagnosticSpan) :
    ∀ x ∈ specBacktraceRecords fn spans,
      x.line_num ∈ (matchingSpans fn spans).flatMap (fun s =>
        match s.expansion with
        | some frame => chainMatchingLineStarts fn frame
        | none => []) := by
  intro x hx
  simp only [specBacktraceRecords, List.mem_flatMap] at hx ⊢
  obtain ⟨s, hs, hxs⟩ := hx
  refine ⟨s, hs, ?_⟩
  cases hexp : s.expansion with
  | none =>
    rw [hexp] at hxs
    cases hxs
  | some frame =>
    rw [hexp] at hxs
    have hxs2 : x ∈ push_backtrace frame fn := hxs
    show x.line_num ∈ chainMatchingLineStarts fn frame
    rw [push_backtrace_chain fn frame] at hxs2
    simp only [List.mem_flatMap] at hxs2
    obtain ⟨p, hp, hxp⟩ := hxs2
    by_cases hf : (p.1.file_name == fn) = true
    · simp only [hf, if_true, List.mem_singleton] at hxp
      subst hxp
      simp only [chainMatchingLineStarts, List.mem_filterMap]
      exact ⟨p, hp, by simp [hf]⟩
    · simp [hf] at hxp

/-- Rendered records lie at an offset, below the rendered line count,
from the minimum matching `line_start`. -/
theorem specRenderedRecords_origin (fn : String)
    (spans : List DiagnosticSpan) (r : String) (seg : List Error)
    (h : specRenderedRecords fn spans (some r) = .ok seg) :
    ∀ x ∈ seg, ∃ start_line,
      ((matchingSpans fn spans).map (fun s => s.line_start)).min? =
        some start_line ∧
      ∃ i < (rustLines r).length, x.line_num = start_line + i := by
  cases hm : ((matchingSpans fn spans).map (fun s => s.line_start)).min? with
  | none => simp [specRenderedRecords, hm] at h
  | some start_line =>
    simp only [specRenderedRecords, hm, pure, Except.pure,
               Except.ok.injEq] at h
    subst h
    intro x hx
    simp only [List.mem_map] at hx
    obtain ⟨p, hp, he⟩ := hx
    subst he
    exact ⟨start_line, rfl, p.1, by
      simpa using mem_enum_fst_lt (rustLines r) p hp, by simp⟩

mutual

/-- Universal provenance: every record of a successful flattening has a
line number originating from the target file's spans: a matching span
or frame `line_start`, or an offset inside a rendered block from its
anchor. -/
theorem push_origin (fn : String) :
    ∀ (d : Diagnostic) (es : List Error),
      push_expected_errors d fn = .ok es → ∀ x ∈ es, originatesFrom fn d x
  | .mk m c l spans children rendered, es => by
    intro h x hx
    obtain ⟨seg, kids, hseg, hkids, he⟩ :=
      push_ok_decomp m c l spans children rendered fn es h
    subst he
    simp only [List.mem_append] at hx
    simp only [originatesFrom]
    rcases hx with (((hx | hx) | hx) | hx) | hx
    · left
      have := specFirstLineRecords_origin fn c l m spans x hx
      simp only [diagMatchingLineStarts, List.mem_append]
      exact Or.inl (Or.inl this)
    · left
      have := specRestLineRecords_origin fn c m spans x hx
      simp only [diagMatchingLineStarts, List.mem_append]
      exact Or.inl (Or.inl this)
    · cases rendered with
      | none =>
        simp only [specRenderedRecords, pure, Except.pure,
                   Except.ok.injEq] at hseg
        subst hseg
        cases hx
      | some r =>
        obtain ⟨start_line, hmin, i, hi, hxi⟩ :=
          specRenderedRecords_origin fn spans r seg hseg x hx
        right
        refine ⟨(start_line, (rustLines r).length), ?_, i, hi, hxi⟩
        simp only [diagRenderedAnchors, hmin, List.mem_append,
                   List.mem_singleton]
        exact Or.inl trivial
    · left
      have := specBacktraceRecords_origin fn spans x hx
      simp only [diagMatchingLineStarts, List.mem_append]
      exact Or.inl (Or.inr this)
    · have hh := push_children_origin fn children kids hkids x hx
      rcases hh with hl | ⟨p, hpa, i, hi, hxi⟩
      · left
        simp only [diagMatchingLineStarts, List.mem_append]
        exact Or.inr hl
      · right
        refine ⟨p, ?_, i, hi, hxi⟩
        simp only [diagRenderedAnchors, List.mem_append]
        exact Or.inr hpa

/-- List version of `push_origin` for child lists. -/
theorem push_children_origin (fn : String) :
    ∀ (cs : List Diagnostic) (es : List Error),
      push_children cs fn = .ok es → ∀ x ∈ es,
        x.line_num ∈ diagsMatchingLineStarts fn cs ∨
        ∃ p ∈ diagsRenderedAnchors fn cs, ∃ i < p.2, x.line_num = p.1 + i
  | [], es => by
    intro h x hx
    simp only [push_children, pure, Except.pure, Except.ok.injEq] at h
    subst h
    cases hx
  | d :: ds, es => by
    intro h x hx
    cases hp : push_expected_errors d fn with
    | error e => simp [push_children, hp, Bind.bind, Except.bind] at h
    | ok es1 =>
      cases hps : push_children ds fn with
      | error e =>
        simp [push_children, hp, hps, Bind.bind, Except.bind] at h
      | ok es2 =>
        simp only [push_children, hp, hps, Bind.bind, Except.bind, pure,
                   Except.pure, Except.ok.injEq] at h
        subst h
        rcases List.mem_append.1 hx with hx1 | hx2
        · have hh := push_origin fn d es1 hp x hx1
          simp only [originatesFrom] at hh
          rcases hh with hl | ⟨p, hpa, i, hi, hxi⟩
          · left
            simp only [diagsMatchingLineStarts, List.mem_append]
            exact Or.inl hl
          · right
            refine ⟨p, ?_, i, hi, hxi⟩
            simp only [diagsRenderedAnchors, List.mem_append]
            exact Or.inl hpa
        · have hh := push_children_origin fn ds es2 hps x hx2
          rcases hh with hl | ⟨p, hpa, i, hi, hxi⟩
          · left
            simp only [diagsMatchingLineStarts, List.mem_append]
            exact Or.inr hl
          · right
            refine ⟨p, ?_, i, hi, hxi⟩
            simp only [diagsRenderedAnchors, List.mem_append]
            exact Or.inr hpa

end

mutual

/-- Every rendered anchor is itself a matching span's `line_start`. -/
theorem anchors_subset (fn : String) :
    ∀ (d : Diagnostic) (p : Nat × Nat),
      p ∈ diagRenderedAnchors fn d → p.1 ∈ diagMatchingLineStarts fn d
  | .mk m c l spans children rendered, p => by
    intro hp
    have lift : p ∈ diagsRenderedAnchors fn children →
        p.1 ∈ diagMatchingLineStarts fn (.mk m c l spans children rendered) := by
      intro hk
      have := anchors_list_subset fn children p hk
      simp only [diagMatchingLineStarts, List.mem_append]
      exact Or.inr this
    cases rendered with
    | none =>
      simp only [diagRenderedAnchors, List.nil_append] at hp
      exact lift hp
    | some r =>
      cases hm : ((matchingSpans fn spans).map (fun s => s.line_start)).min? with
      | none =>
        simp only [diagRenderedAnchors, hm, List.nil_append] at hp
        exact lift hp
      | some start_line =>
        simp only [diagRenderedAnchors, hm, List.mem_append,
                   List.mem_singleton] at hp
        rcases hp with hp | hp
        · subst hp
          have hmem : start_line ∈
              (matchingSpans fn spans).map (fun s => s.line_start) :=
            List.min?_mem (by omega) hm
          simp only [diagMatchingLineStarts, List.mem_append]
          exact Or.inl (Or.inl hmem)
        · exact lift hp

/-- List version of `anchors_subset` for child lists. -/
theorem anchors_list_subset (fn : String) :
    ∀ (cs : List Diagnostic) (p : Nat × Nat),
      p ∈ diagsRenderedAnchors fn cs → p.1 ∈ diagsMatchingLineStarts fn cs
  | [], p => by
    intro h
    simp [diagsRenderedAnchors] at h
  | d :: ds, p => by
    intro h
    simp only [diagsRenderedAnchors, List.mem_append] at h
    simp only [diagsMatchingLineStarts, List.mem_append]
    rcases h with h | h
    · exact Or.inl (anchors_subset fn d p h)
    · exact Or.inr (anchors_list_subset fn ds p h)

end

/-! ### The claims -/

/-- C1: the records produced by `push_expected_errors` appear in
exactly this order: first message line (one per matching span), then
each remaining message line (one per matching span), then the
rendered/suggestion records, then the macro-expansion backtrace notes,
and finally the records of each child diagnostic recursively in
declaration order, each child's records after all of the parent's own
records with no interleaving. -/
theorem C1_traversal_order :
    ∀ (m : String) (code : Option DiagnosticCode) (level : String)
      (spans : List DiagnosticSpan) (children : List Diagnostic)
      (rendered : Option String) (fn : String),
      (push_expected_errors (.mk m code level spans children rendered) fn =
        (do
          let own ← specOwnRecords fn m code level spans rendered
          let kids ← push_children children fn
          pure (own ++ kids))) ∧
      ∀ (child : Diagnostic) (rest : List Diagnostic),
        push_children (child :: rest) fn =
          (do
            let head ← push_expected_errors child fn
            let tail ← push_children rest fn
            pure (head ++ tail)) := by
  intro m code level spans children rendered fn
  exact ⟨push_decomp m code level spans children rendered fn,
         fun child rest => by simp only [push_children]⟩

/-- C2: splitting the message on newlines, the first line yields one
record per matching span classified by the level-derived kind, and
every subsequent line yields one unclassified record per matching span;
the "a\nb\nc" example yields exactly the three stated records in
order. -/
theorem C2_message_lines :
    (∀ (m : String) (code : Option DiagnosticCode) (level : String)
       (spans : List DiagnosticSpan) (children : List Diagnostic)
       (rendered : Option String) (fn : String) (es : List Error),
       push_expected_errors (.mk m code level spans children rendered) fn =
         .ok es →
       ∃ rest, es = specFirstLineRecords fn code level m spans ++
                    specRestLineRecords fn code m spans ++ rest) ∧
    push_expected_errors
        (.mk "a\nb\nc" none "error" [.mk "foo.rs" 5 5 1 2 none] [] none)
        "foo.rs" =
      .ok [{ line_num := 5, kind := some ErrorKind.error, msg := "5:1: 5:2: a" },
           { line_num := 5, kind := none, msg := "5:1: 5:2: b" },
           { line_num := 5, kind := none, msg := "5:1: 5:2: c" }] := by
  constructor
  · intro m code level spans children rendered fn es h
    obtain ⟨seg, kids, hseg, hkids, he⟩ :=
      push_ok_decomp m code level spans children rendered fn es h
    exact ⟨seg ++ (specBacktraceRecords fn spans ++ kids),
           by simp [he, List.append_assoc]⟩
  · rw [push_decomp]
    simp only [push_children]
    rfl

/-- C2 witness: the general part of C2 applied at the concrete
three-line diagnostic. -/
theorem C2_message_lines_witness :
    ∃ rest,
      ([{ line_num := 5, kind := some ErrorKind.error, msg := "5:1: 5:2: a" },
        { line_num := 5, kind := none, msg := "5:1: 5:2: b" },
        { line_num := 5, kind := none, msg := "5:1: 5:2: c" }] : List Error) =
        specFirstLineRecords "foo.rs" none "error" "a\nb\nc"
          [.mk "foo.rs" 5 5 1 2 none] ++
        specRestLineRecords "foo.rs" none "a\nb\nc"
          [.mk "foo.rs" 5 5 1 2 none] ++ rest :=
  C2_message_lines.1 "a\nb\nc" none "error" [.mk "foo.rs" 5 5 1 2 none] []
    none "foo.rs"
    [{ line_num := 5, kind := some ErrorKind.error, msg := "5:1: 5:2: a" },
     { line_num := 5, kind := none, msg := "5:1: 5:2: b" },
     { line_num := 5, kind := none, msg := "5:1: 5:2: c" }]
    (by rw [push_decomp]; simp only [push_children]; rfl)

/-- C3: a message-line record's text is
"line_start:col_start: line_end:col_end: text [code]" when the
diagnostic has a code and the same without the bracketed code when it
has none; the text never depends on the span's file name; with code
E0001 every message line carries the suffix " [E0001]". -/
theorem C3_msg_format :
    (∀ (f : String) (ls le cs ce : Nat)
       (exp : Option DiagnosticSpanMacroExpansion) (text c : String)
       (expl : Option String),
       with_code (some { code := c, explanation := expl })
           (.mk f ls le cs ce exp) text =
         toString ls ++ ":" ++ toString cs ++ ": " ++ toString le ++ ":" ++
           toString ce ++ ": " ++ text ++ " [" ++ c ++ "]") ∧
    (∀ (f : String) (ls le cs ce : Nat)
       (exp : Option DiagnosticSpanMacroExpansion) (text : String),
       with_code none (.mk f ls le cs ce exp) text =
         toString ls ++ ":" ++ toString cs ++ ": " ++ toString le ++ ":" ++
           toString ce ++ ": " ++ text) ∧
    (∀ (code : Option DiagnosticCode) (f1 f2 : String) (ls le cs ce : Nat)
       (e1 e2 : Option DiagnosticSpanMacroExpansion) (text : String),
       with_code code (.mk f1 ls le cs ce e1) text =
         with_code code (.mk f2 ls le cs ce e2) text) ∧
    (push_expected_errors
        (.mk "a\nb\nc" (some { code := "E0001", explanation := none })
          "error" [.mk "foo.rs" 5 5 1 2 none] [] none) "foo.rs" =
      .ok [{ line_num := 5, kind := some ErrorKind.error,
             msg := "5:1: 5:2: a [E0001]" },
           { line_num := 5, kind := none, msg := "5:1: 5:2: b [E0001]" },
           { line_num := 5, kind := none, msg := "5:1: 5:2: c [E0001]" }] ∧
     (["5:1: 5:2: a [E0001]", "5:1: 5:2: b [E0001]",
       "5:1: 5:2: c [E0001]"].all
        (fun s => " [E0001]".data.isSuffixOf s.data)) = true) := by
  refine ⟨?_, ?_, ?_, ?_, ?_⟩
  · intro f ls le cs ce exp text c expl
    rfl
  · intro f ls le cs ce exp text
    rfl
  · intro code f1 f2 ls le cs ce e1 e2 text
    cases code <;> rfl
  · rw [push_decomp]
    simp only [push_children]
    rfl
  · decide

/-- C4: parse_output ignores lines that do not begin with a brace (an
input with no such line yields the empty sequence), while a line that
begins with a brace and fails to decode aborts the whole computation
with a message that includes the decode error, instead of skipping the
line and returning a partial list. -/
theorem C4_two_tier (decode : String → Except String Diagnostic)
    (fn : String) :
    (∀ output : String,
       (∀ l ∈ rustLines output, ¬ l.data.head? = some '\x7b') →
       parse_output decode fn output = .ok []) ∧
    (∀ (output : String) (pre : List String) (l : String)
       (post : List String) (e : String) (es : List Error),
       rustLines output = pre ++ l :: post →
       parse_lines decode fn pre = .ok es →
       l.data.head? = some '\x7b' →
       decode l = .error e →
       parse_output decode fn output =
         .error ("failed to decode compiler output as json: `" ++ e ++ "`")) := by
  constructor
  · intro output h
    rw [parse_output]
    exact parse_lines_skip decode fn (rustLines output) h
  · intro output pre l post e es hsplit hpre hbrace hdec
    rw [parse_output, hsplit]
    have hl : parse_line decode fn l =
        .error ("failed to decode compiler output as json: `" ++ e ++ "`") := by
      simp [parse_line, hbrace, hdec]
    exact parse_lines_append_error decode fn l _ post hl pre es hpre

/-- C4 witness: a braceless input yields the empty sequence; a braced
line rejected by the decoder aborts with the decode error embedded. -/
theorem C4_two_tier_witness :
    parse_output dec0 "foo.rs" "noise\nmore" = .ok [] ∧
    parse_output dec0 "foo.rs" "noise\n\x7bbad" =
      .error "failed to decode compiler output as json: `boom`" :=
  ⟨(C4_two_tier dec0 "foo.rs").1 "noise\nmore" (by decide),
   (C4_two_tier dec0 "foo.rs").2 "noise\n\x7bbad" ["noise"] "\x7bbad" []
     "boom" [] (by rfl) (by rfl) (by rfl) (by rfl)⟩

/-- C5: every Error record's line number originates from a span of the
target file: it is the `line_start` of a matching span or of a matching
expansion frame reached from a matching span, or, for a rendered line,
an offset (below the rendered block's length) from the block's anchor —
and every such anchor is itself a matching span's `line_start`. Spans
whose file name differs from the target contribute no records: deleting
them, recursively, leaves the output unchanged, and a diagnostic whose
spans all lie in other files (no children, no rendered text) produces
no records at all. -/
theorem C5_line_num_provenance :
    (∀ (d : Diagnostic) (fn : String) (es : List Error),
       push_expected_errors d fn = .ok es →
       ∀ x ∈ es, originatesFrom fn d x) ∧
    (∀ (d : Diagnostic) (fn : String) (p : Nat × Nat),
       p ∈ diagRenderedAnchors fn d → p.1 ∈ diagMatchingLineStarts fn d) ∧
    (∀ (d : Diagnostic) (fn : String),
       push_expected_errors (filterToFile d fn) fn =
         push_expected_errors d fn) ∧
    (∀ (m : String) (code : Option DiagnosticCode) (level fn : String)
       (spans : List DiagnosticSpan),
       spans.filter (fun s => s.file_name == fn) = [] →
       push_expected_errors (.mk m code level spans [] none) fn = .ok []) := by
  refine ⟨?_, ?_, ?_, ?_⟩
  · intro d fn es h x hx
    exact push_origin fn d es h x hx
  · intro d fn p hp
    exact anchors_subset fn d p hp
  · intro d fn
    exact push_filter_spans fn d
  · intro m code level fn spans h
    rw [push_decomp, specOwnRecords]
    cases hml : rustLines m with
    | nil =>
      simp [specFirstLineRecords, specRestLineRecords, specRenderedRecords,
            specBacktraceRecords, matchingSpans, h, hml, push_children,
            Bind.bind, Except.bind, pure, Except.pure]
    | cons a as =>
      simp [specFirstLineRecords, specRestLineRecords, specRenderedRecords,
            specBacktraceRecords, matchingSpans, h, hml, push_children,
            Bind.bind, Except.bind, pure, Except.pure]

/-- C5 witness: provenance applied to a concrete note record produced
through a two-level expansion chain, and the no-matching-spans part
applied to a diagnostic whose only span is in another file. -/
theorem C5_line_num_provenance_witness :
    originatesFrom "foo.rs"
      (.mk "m" none "warning"
        [.mk "foo.rs" 7 7 1 2
          (some (.mk (.mk "foo.rs" 30 30 1 2
            (some (.mk (.mk "foo.rs" 20 20 1 2 none) "inner!")))
            "outer!"))]
        [] none)
      { line_num := 20, kind := some ErrorKind.note,
        msg := "in this expansion of inner!" } ∧
    push_expected_errors
        (.mk "m" none "error" [.mk "other.rs" 3 3 1 2 none] [] none)
        "foo.rs" = .ok [] :=
  ⟨C5_line_num_provenance.1
     (.mk "m" none "warning"
       [.mk "foo.rs" 7 7 1 2
         (some (.mk (.mk "foo.rs" 30 30 1 2
           (some (.mk (.mk "foo.rs" 20 20 1 2 none) "inner!")))
           "outer!"))]
       [] none)
     "foo.rs"
     [{ line_num := 7, kind := some ErrorKind.warning, msg := "7:1: 7:2: m" },
      { line_num := 30, kind := some ErrorKind.note,
        msg := "in this expansion of outer!" },
      { line_num := 20, kind := some ErrorKind.note,
        msg := "in this expansion of inner!" }]
     (by rw [push_decomp]; simp only [push_children]; rfl)
     { line_num := 20, kind := some ErrorKind.note,
       msg := "in this expansion of inner!" }
     (by decide),
   C5_line_num_provenance.2.2.2 "m" none "error" "foo.rs"
     [.mk "other.rs" 3 3 1 2 none] (by rfl)⟩

/-- C6: with rendered text present and `start_line` the minimum
`line_start` of the matching spans, one suggestion-classified record is
emitted per rendered line, at `start_line + index`; rendered "x\ny"
anchored at 10 yields suggestion records at lines 10 and 11. -/
theorem C6_rendered :
    (∀ (m : String) (code : Option DiagnosticCode) (level : String)
       (spans : List DiagnosticSpan) (children : List Diagnostic)
       (r fn : String) (start_line : Nat) (es : List Error),
       ((matchingSpans fn spans).map (fun s => s.line_start)).min? =
         some start_line →
       push_expected_errors (.mk m code level spans children (some r)) fn =
         .ok es →
       ∃ kids, push_children children fn = .ok kids ∧
         es = specFirstLineRecords fn code level m spans ++
              specRestLineRecords fn code m spans ++
              (rustLines r).enum.map (fun p =>
                ({ line_num := start_line + p.1
                   kind := some ErrorKind.suggestion
                   msg := p.2 } : Error)) ++
              specBacktraceRecords fn spans ++ kids) ∧
    (push_expected_errors
        (.mk "m" none "error" [.mk "foo.rs" 10 10 1 2 none] []
          (some "x\ny")) "foo.rs" =
      .ok [{ line_num := 10, kind := some ErrorKind.error,
             msg := "10:1: 10:2: m" },
           { line_num := 10, kind := some ErrorKind.suggestion, msg := "x" },
           { line_num := 11, kind := some ErrorKind.suggestion,
             msg := "y" }]) := by
  constructor
  · intro m code level spans children r fn start_line es hmin h
    obtain ⟨seg, kids, hseg, hkids, he⟩ :=
      push_ok_decomp m code level spans children (some r) fn es h
    have hseg2 : seg = (rustLines r).enum.map (fun p =>
        ({ line_num := start_line + p.1
           kind := some ErrorKind.suggestion
           msg := p.2 } : Error)) := by
      simp [specRenderedRecords, hmin, pure, Except.pure] at hseg
      exact hseg.symm
    exact ⟨kids, hkids, by rw [he, hseg2]⟩
  · rw [push_decomp]
    simp only [push_children]
    rfl

/-- C6 witness: the general part of C6 applied at the concrete rendered
diagnostic anchored at line 10. -/
theorem C6_rendered_witness :
    ∃ kids, push_children [] "foo.rs" = .ok kids ∧
      ([{ line_num := 10, kind := some ErrorKind.error,
          msg := "10:1: 10:2: m" },
        { line_num := 10, kind := some ErrorKind.suggestion, msg := "x" },
        { line_num := 11, kind := some ErrorKind.suggestion,
          msg := "y" }] : List Error) =
        specFirstLineRecords "foo.rs" none "error" "m"
          [.mk "foo.rs" 10 10 1 2 none] ++
        specRestLineRecords "foo.rs" none "m"
          [.mk "foo.rs" 10 10 1 2 none] ++
        (rustLines "x\ny").enum.map (fun p =>
          ({ line_num := 10 + p.1
             kind := some ErrorKind.suggestion
             msg := p.2 } : Error)) ++
        specBacktraceRecords "foo.rs" [.mk "foo.rs" 10 10 1 2 none] ++
        kids :=
  C6_rendered.1 "m" none "error" [.mk "foo.rs" 10 10 1 2 none] [] "x\ny"
    "foo.rs" 10
    [{ line_num := 10, kind := some ErrorKind.error, msg := "10:1: 10:2: m" },
     { line_num := 10, kind := some ErrorKind.suggestion, msg := "x" },
     { line_num := 11, kind := some ErrorKind.suggestion, msg := "y" }]
    (by rfl)
    (by rw [push_decomp]; simp only [push_children]; rfl)

/-- C7: a diagnostic with rendered text but no span in the target file
fails fatally with a descriptive message, at the flattener and through
the whole scan: no partial record list is returned. -/
theorem C7_rendered_no_span :
    (∀ (m : String) (code : Option DiagnosticCode) (level : String)
       (spans : List DiagnosticSpan) (children : List Diagnostic)
       (r fn : String),
       spans.filter (fun s => s.file_name == fn) = [] →
       push_expected_errors (.mk m code level spans children (some r)) fn =
         .error "every suggestion should have at least one span") ∧
    (∀ (decode : String → Except String Diagnostic)
       (fn line m : String) (code : Option DiagnosticCode) (level : String)
       (spans : List DiagnosticSpan) (children : List Diagnostic)
       (r output : String) (pre post : List String) (es : List Error),
       decode line = .ok (.mk m code level spans children (some r)) →
       line.data.head? = some '\x7b' →
       spans.filter (fun s => s.file_name == fn) = [] →
       rustLines output = pre ++ line :: post →
       parse_lines decode fn pre = .ok es →
       parse_output decode fn output =
         .error "every suggestion should have at least one span") := by
  have h1 : ∀ (m : String) (code : Option DiagnosticCode) (level : String)
      (spans : List DiagnosticSpan) (children : List Diagnostic)
      (r fn : String),
      spans.filter (fun s => s.file_name == fn) = [] →
      push_expected_errors (.mk m code level spans children (some r)) fn =
        .error "every suggestion should have at least one span" := by
    intro m code level spans children r fn h
    rw [push_decomp, specOwnRecords]
    have hr : specRenderedRecords fn spans (some r) =
        .error "every suggestion should have at least one span" := by
      simp [specRenderedRecords, matchingSpans, h]
    simp [hr, Bind.bind, Except.bind]
  refine ⟨h1, ?_⟩
  intro decode fn line m code level spans children r output pre post es
    hdec hbrace hfilter hsplit hpre
  rw [parse_output, hsplit]
  have hl : parse_line decode fn line =
      .error "every suggestion should have at least one span" := by
    simp only [parse_line, hbrace, hdec, if_pos]
    exact h1 m code level spans children r fn hfilter
  exact parse_lines_append_error decode fn line _ post hl pre es hpre

/-- C7 witness: both parts of C7 at a diagnostic whose only span is in
another file. -/
theorem C7_rendered_no_span_witness :
    push_expected_errors
        (.mk "m" none "error" [.mk "other.rs" 3 3 1 2 none] [] (some "x"))
        "foo.rs" =
      .error "every suggestion should have at least one span" ∧
    parse_output dec1 "foo.rs" "\x7bx" =
      .error "every suggestion should have at least one span" :=
  ⟨C7_rendered_no_span.1 "m" none "error" [.mk "other.rs" 3 3 1 2 none] []
     "x" "foo.rs" (by rfl),
   C7_rendered_no_span.2 dec1 "foo.rs" "\x7bx" "m" none "error"
     [.mk "other.rs" 3 3 1 2 none] [] "x" "\x7bx" [] [] []
     (by rfl) (by rfl) (by rfl) (by rfl) (by rfl)⟩

/-- C8: the backtrace walker visits the expansion chain outer-to-inner,
filtering each frame independently by file name and emitting a note
with the frame's line and macro name; a two-level chain with both
frames in the target file yields exactly two notes outer-to-inner. -/
theorem C8_backtrace :
    (∀ (expansion : DiagnosticSpanMacroExpansion) (fn : String),
       push_backtrace expansion fn =
         (chainFrames expansion).flatMap (fun p =>
           if p.1.file_name == fn then
             [{ line_num := p.1.line_start
                kind := some ErrorKind.note
                msg := "in this expansion of " ++ p.2 }]
           else [])) ∧
    (push_backtrace
        (.mk (.mk "foo.rs" 30 30 1 2
          (some (.mk (.mk "foo.rs" 20 20 1 2 none) "inner!"))) "outer!")
        "foo.rs" =
      [{ line_num := 30, kind := some ErrorKind.note,
         msg := "in this expansion of outer!" },
       { line_num := 20, kind := some ErrorKind.note,
         msg := "in this expansion of inner!" }]) ∧
    (push_backtrace
        (.mk (.mk "other.rs" 30 30 1 2
          (some (.mk (.mk "foo.rs" 20 20 1 2 none) "inner!"))) "outer!")
        "foo.rs" =
      [{ line_num := 20, kind := some ErrorKind.note,
         msg := "in this expansion of inner!" }]) ∧
    (push_expected_errors
        (.mk "m" none "warning"
          [.mk "foo.rs" 7 7 1 2
            (some (.mk (.mk "foo.rs" 30 30 1 2
              (some (.mk (.mk "foo.rs" 20 20 1 2 none) "inner!")))
              "outer!"))]
          [] none) "foo.rs" =
      .ok [{ line_num := 7, kind := some ErrorKind.warning,
             msg := "7:1: 7:2: m" },
           { line_num := 30, kind := some ErrorKind.note,
             msg := "in this expansion of outer!" },
           { line_num := 20, kind := some ErrorKind.note,
             msg := "in this expansion of inner!" }]) :=
  ⟨fun expansion fn => push_backtrace_chain fn expansion,
   by rfl, by rfl,
   by rw [push_decomp]; simp only [push_children]; rfl⟩

/-- C9 counterexample: the claim says rendered-suggestion records carry
kind = none, but the code classifies them as suggestions: at a concrete
rendered diagnostic the synthesized record's kind is
`some suggestion`, which is not `none`. -/
theorem C9_suggestion_kind_counterexample :
    push_expected_errors
        (.mk "m" none "error" [.mk "foo.rs" 10 10 1 2 none] [] (some "x"))
        "foo.rs" =
      .ok [{ line_num := 10, kind := some ErrorKind.error,
             msg := "10:1: 10:2: m" },
           { line_num := 10, kind := some ErrorKind.suggestion,
             msg := "x" }] ∧
    some ErrorKind.suggestion ≠ (none : Option ErrorKind) := by
  constructor
  · rw [push_decomp]
    simp only [push_children]
    rfl
  · intro h
    cases h

/-- C9 (amended): continuation-line records of a multi-line message
have kind = none, while records synthesized from rendered suggestion
lines are classified as suggestions (kind = some suggestion). -/
theorem C9_amended_kinds :
    ∀ (m : String) (code : Option DiagnosticCode) (level : String)
      (spans : List DiagnosticSpan) (children : List Diagnostic)
      (rendered : Option String) (fn : String) (es : List Error),
      push_expected_errors (.mk m code level spans children rendered) fn =
        .ok es →
      ∃ seg kids,
        es = specFirstLineRecords fn code level m spans ++
             specRestLineRecords fn code m spans ++ seg ++
             specBacktraceRecords fn spans ++ kids ∧
        (∀ x ∈ specRestLineRecords fn code m spans, x.kind = none) ∧
        (∀ x ∈ seg, x.kind = some ErrorKind.suggestion) := by
  intro m code level spans children rendered fn es h
  obtain ⟨seg, kids, hseg, hkids, he⟩ :=
    push_ok_decomp m code level spans children rendered fn es h
  exact ⟨seg, kids, he, specRestLineRecords_kinds fn code m spans,
         specRenderedRecords_kinds fn spans rendered seg hseg⟩

/-- C9 amended witness: the amended claim at a concrete two-line
message with rendered text. -/
theorem C9_amended_kinds_witness :
    ∃ seg kids,
      ([{ line_num := 10, kind := some ErrorKind.error,
          msg := "10:1: 10:2: a" },
        { line_num := 10, kind := none, msg := "10:1: 10:2: b" },
        { line_num := 10, kind := some ErrorKind.suggestion,
          msg := "x" }] : List Error) =
        specFirstLineRecords "foo.rs" none "error" "a\nb"
          [.mk "foo.rs" 10 10 1 2 none] ++
        specRestLineRecords "foo.rs" none "a\nb"
          [.mk "foo.rs" 10 10 1 2 none] ++ seg ++
        specBacktraceRecords "foo.rs" [.mk "foo.rs" 10 10 1 2 none] ++
        kids ∧
      (∀ x ∈ specRestLineRecords "foo.rs" none "a\nb"
          [.mk "foo.rs" 10 10 1 2 none], x.kind = none) ∧
      (∀ x ∈ seg, x.kind = some ErrorKind.suggestion) :=
  C9_amended_kinds "a\nb" none "error" [.mk "foo.rs" 10 10 1 2 none] []
    (some "x") "foo.rs"
    [{ line_num := 10, kind := some ErrorKind.error, msg := "10:1: 10:2: a" },
     { line_num := 10, kind := none, msg := "10:1: 10:2: b" },
     { line_num := 10, kind := some ErrorKind.suggestion, msg := "x" }]
    (by rw [push_decomp]; simp only [push_children]; rfl)

/-- C10: a rendered-suggestion record's text is the corresponding
rendered line verbatim, with no location embedded and no code suffix
even when the diagnostic has a code. -/
theorem C10_rendered_verbatim :
    (∀ (m : String) (code : Option DiagnosticCode) (level : String)
       (spans : List DiagnosticSpan) (children : List Diagnostic)
       (r fn : String) (es : List Error),
       push_expected_errors (.mk m code level spans children (some r)) fn =
         .ok es →
       ∃ seg kids,
         es = specFirstLineRecords fn code level m spans ++
              specRestLineRecords fn code m spans ++ seg ++
              specBacktraceRecords fn spans ++ kids ∧
         seg.map (fun x => x.msg) = rustLines r) ∧
    (push_expected_errors
        (.mk "m" (some { code := "E0001", explanation := none }) "error"
          [.mk "foo.rs" 10 10 1 2 none] [] (some "x")) "foo.rs" =
      .ok [{ line_num := 10, kind := some ErrorKind.error,
             msg := "10:1: 10:2: m [E0001]" },
           { line_num := 10, kind := some ErrorKind.suggestion,
             msg := "x" }]) := by
  constructor
  · intro m code level spans children r fn es h
    obtain ⟨seg, kids, hseg, hkids, he⟩ :=
      push_ok_decomp m code level spans children (some r) fn es h
    exact ⟨seg, kids, he, specRenderedRecords_msgs fn spans r seg hseg⟩
  · rw [push_decomp]
    simp only [push_children]
    rfl

/-- C10 witness: the general part of C10 at a concrete diagnostic with
a code and one rendered line. -/
theorem C10_rendered_verbatim_witness :
    ∃ seg kids,
      ([{ line_num := 10, kind := some ErrorKind.error,
          msg := "10:1: 10:2: m [E0001]" },
        { line_num := 10, kind := some ErrorKind.suggestion,
          msg := "x" }] : List Error) =
        specFirstLineRecords "foo.rs"
          (some { code := "E0001", explanation := none }) "error" "m"
          [.mk "foo.rs" 10 10 1 2 none] ++
        specRestLineRecords "foo.rs"
          (some { code := "E0001", explanation := none }) "m"
          [.mk "foo.rs" 10 10 1 2 none] ++ seg ++
        specBacktraceRecords "foo.rs" [.mk "foo.rs" 10 10 1 2 none] ++
        kids ∧
      seg.map (fun x => x.msg) = rustLines "x" :=
  C10_rendered_verbatim.1 "m" (some { code := "E0001", explanation := none })
    "error" [.mk "foo.rs" 10 10 1 2 none] [] "x" "foo.rs"
    [{ line_num := 10, kind := some ErrorKind.error,
       msg := "10:1: 10:2: m [E0001]" },
     { line_num := 10, kind := some ErrorKind.suggestion, msg := "x" }]
    (by rw [push_decomp]; simp only [push_children]; rfl)

end Compiletest
